import Mathlib

/-!
Verification development for the CHM generator's Run Orchestrator.

The definitions below are a shallow embedding of the orchestration core:

* the Electron main-process IPC handlers (`python:runScript`,
  `python:cancelScript`, `writeRealtimeLog`) from the main module, and
* the renderer-side run loop (`onRunScripts`, `onCancelExecution`,
  `canRun`) from the script page.

JavaScript asynchrony is modelled explicitly: the shared cancellation
flag `isCancelled` can only be mutated at `await` boundaries, so the run
loop is interpreted against an oracle `c : Nat → Bool` giving the value
of the flag after `t` completed awaits, and the external
`runPythonScript` boundary is an oracle `beh : Nat → InvokeBehavior`
indexed by a global invocation counter.  Every started invocation is
logged in a trace together with the await-time at which it was launched.
-/

namespace ChmGen

/-- Result shape resolved by the `python:runScript` IPC handler and
consumed by the renderer (`success`, `output`, optional `error`, `code`). -/
structure IpcResult where
  success : Bool
  output : String
  error : Option String
  code : Int
deriving Repr, DecidableEq

/-- One member-step outcome stored inside a grouped (pipeline) result:
interface `SubScriptResult` of the script page. -/
structure SubScriptResult where
  name : String
  success : Bool
  output : String
  error : Option String
  code : Int
deriving Repr, DecidableEq

/-- Entry of the results map: interface `ScriptResult` of the script
page; `subScripts` is present only for pipeline (group) units. -/
structure ScriptResult where
  success : Bool
  output : String
  error : Option String
  code : Int
  subScripts : Option (List SubScriptResult)
deriving Repr, DecidableEq

/-- A selected unit: `id`, `name`, and the member-step list `scripts`.
A unit with non-empty `scripts` is a pipeline (the code tests
`script.scripts && script.scripts.length > 0`); an empty list models a
single step (whose JS object has no `scripts` field). -/
structure Script where
  id : String
  name : String
  scripts : List String
deriving Repr, DecidableEq

/-! ## Process Runner (main process, `python:runScript` handler) -/

/-- One incremental output chunk of the external process, as delivered
to the `stdout`/`stderr` data listeners. -/
inductive ProcEvent where
  | stdout (text : String)
  | stderr (text : String)
deriving Repr, DecidableEq

/-- Lifecycle of one spawned process: either the `error` event fires
(the command could not start) or the process runs, emits its chunks and
exits via the `close` event with an exit code. -/
inductive ProcBehavior where
  | failsToStart (msg : String)
  | runs (events : List ProcEvent) (exitCode : Int)
deriving Repr

/-- The two accumulators of the handler (`output += text` on stdout
data, `errorOutput += text` on stderr data), folded over the chunk
stream in arrival order. -/
def collectOutput (events : List ProcEvent) : String × String :=
  events.foldl
    (fun acc e =>
      match e with
      | .stdout s => (acc.1 ++ s, acc.2)
      | .stderr s => (acc.1, acc.2 ++ s))
    ("", "")

/-- The `python:runScript` IPC handler: rejects (with the launch-error
message) only when the process `error` event fires; a `close` event
always resolves, with `success` iff the exit code is `0`, the
accumulated stdout as `output`, and — on a non-zero code — the
accumulated stderr as `error`. -/
def runScriptIpc : ProcBehavior → Except String IpcResult
  | .failsToStart m => .error ("启动 Python 脚本失败: " ++ m)
  | .runs events code =>
      let acc := collectOutput events
      if code = 0 then
        .ok { success := true, output := acc.1, error := none, code := code }
      else
        .ok { success := false, output := acc.1, error := some acc.2, code := code }

/-! ## Log Sink (main process, `writeRealtimeLog`) -/

/-- The `logData` record passed to the log writers.  `timestamp` is the
capture-time string computed once per message (localized formatting of
the ISO timestamp is abstracted as the string itself). -/
structure LogData where
  scriptName : String
  type : String
  data : String
  timestamp : String
deriving Repr, DecidableEq

/-- `logData.scriptName || "SYSTEM"`: an empty (falsy) origin falls back
to the `SYSTEM` sentinel. -/
def logOrigin (d : LogData) : String :=
  if d.scriptName = "" then "SYSTEM" else d.scriptName

/-- One formatted live-log record: `[timestamp] [origin] [KIND] line\n`. -/
def fmtLogLine (ts origin kind line : String) : String :=
  "[" ++ ts ++ "] [" ++ origin ++ "] [" ++ kind ++ "] " ++ line ++ "\n"

/-- Concatenation of a list of strings (the appended file region). -/
def concatAll : List String → String
  | [] => ""
  | s :: rest => s ++ concatAll rest

/-- `writeRealtimeLog`: splits the message on `"\n"` and appends, for
each line whose trimmed text is non-empty, one timestamp-prefixed record
to the live file (modelled as the file's contents). -/
def writeRealtimeLog (file : String) (d : LogData) : String :=
  let ts := d.timestamp
  let origin := logOrigin d
  let kind := d.type.toUpper
  let lines := d.data.splitOn "\n"
  lines.foldl
    (fun f line => if line.trim = "" then f else f ++ fmtLogLine ts origin kind line)
    file

/-- The non-empty (after trimming) lines of a message — the lines that
produce a live-log record. -/
def nonEmptyLines (msg : String) : List String :=
  (msg.splitOn "\n").filter (fun l => !(l.trim = ""))

/-! ## Cancellation path -/

/-- Shape returned by the cancellation boundary (`{success, error?}`). -/
structure CancelResult where
  success : Bool
  error : Option String
deriving Repr, DecidableEq

/-- The `python:cancelScript` IPC handler, as a function of the shared
`currentPythonProcess` reference (a pid when a process is in flight):
with a live process it requests termination and returns success, with no
process it returns `success = false` and the explanatory error. -/
def cancelPythonScript (currentPythonProcess : Option Nat) : CancelResult :=
  match currentPythonProcess with
  | some _ => { success := true, error := none }
  | none => { success := false, error := some "没有正在运行的脚本" }

/-- What the awaited `cancelPythonScript` IPC call did from the
renderer's point of view: returned a result, or threw. -/
inductive CancelApi where
  | returns (r : CancelResult)
  | throws (msg : String)
deriving Repr, DecidableEq

/-- Renderer-side Run State: `isRunning`, `currentScriptIndex`,
`scriptResults` (insertion-ordered map), `isCancelled`. -/
structure RunState where
  running : Bool
  currentScriptIndex : Int
  results : List (String × ScriptResult)
  cancelled : Bool
deriving Repr, DecidableEq

/-- `onCancelExecution` of the script page: on API success it sets the
cancel flag, stops the loop state and returns success; on API failure or
a thrown error it still sets the cancel flag and returns the failure.
It is total — every branch returns a `CancelResult`. -/
def onCancelExecution (st : RunState) (api : CancelApi) : CancelResult × RunState :=
  match api with
  | .returns r =>
      if r.success then
        ({ success := true, error := none },
         { st with cancelled := true, running := false, currentScriptIndex := -1 })
      else
        ({ success := false, error := some (r.error.getD "未知错误") },
         { st with cancelled := true })
  | .throws m =>
      ({ success := false, error := some m }, { st with cancelled := true })

/-! ## Run Orchestrator (renderer, `onRunScripts`) -/

/-- External behaviour of one `runPythonScript` call: the promise
resolves with an `IpcResult`, or rejects (is thrown at the `await`). -/
inductive InvokeBehavior where
  | resolves (r : IpcResult)
  | throws (msg : String)
deriving Repr

/-- Read a key of the JS results object (insertion-ordered). -/
def getKey : List (String × ScriptResult) → String → Option ScriptResult
  | [], _ => none
  | (k0, v) :: rest, key => if k0 = key then some v else getKey rest key

/-- Write a key of the JS results object, preserving insertion order. -/
def setKey : List (String × ScriptResult) → String → ScriptResult → List (String × ScriptResult)
  | [], key, v => [(key, v)]
  | (k0, v0) :: rest, key, v =>
      if k0 = key then (key, v) :: rest else (k0, v0) :: setKey rest key v

/-- The member outcome recorded for one pipeline member: field-for-field
copy of a resolved result, or the `{success:false, output:"", error:
message, code:-1}` record built in the catch branch. -/
def mkSubResult (sub : String) : InvokeBehavior → SubScriptResult
  | .resolves r => { name := sub, success := r.success, output := r.output,
                     error := r.error, code := r.code }
  | .throws m => { name := sub, success := false, output := "",
                   error := some m, code := -1 }

/-- The group-level error text set when a member fails:
`子脚本 <name> 执行失败: <error>` (an absent error interpolates as the
string `undefined`, as in the JS template literal). -/
def subFailText (o : SubScriptResult) : String :=
  "子脚本 " ++ o.name ++ " 执行失败: " ++ o.error.getD "undefined"

/-- Recording one pipeline member into the group entry (lines creating
the entry lazily, pushing the member outcome, and marking the group
failed with the failure text when the member failed).  The resolve
branch lazily creates `{success:true, output:"", subScripts:[], code:0}`;
the catch branch lazily creates the same with `success:false, code:-1`. -/
def recordMember (cur : Option ScriptResult) (sub : String) (b : InvokeBehavior) : ScriptResult :=
  let o := mkSubResult sub b
  match b with
  | .resolves r =>
      let e0 := cur.getD { success := true, output := "", error := none,
                           code := 0, subScripts := some [] }
      let e1 := { e0 with subScripts := some (e0.subScripts.getD [] ++ [o]) }
      if r.success then e1
      else { e1 with success := false, error := some (subFailText o) }
  | .throws _ =>
      let e0 := cur.getD { success := false, output := "", error := none,
                           code := -1, subScripts := some [] }
      let e1 := { e0 with subScripts := some (e0.subScripts.getD [] ++ [o]) }
      { e1 with success := false, error := some (subFailText o) }

/-- Mutable state threaded through the execution loop: `t` counts
completed awaits (the points where the shared cancel flag can change),
`k` counts started Step Invocations, `trace` logs the await-time at
which each invocation was launched, `results` is the results map. -/
structure LoopState where
  t : Nat
  k : Nat
  trace : List Nat
  results : List (String × ScriptResult)
deriving Repr, DecidableEq

/-- The inner member loop of a pipeline unit.  Checks the cancel flag at
the loop head (and again just before the API call — no await separates
the two, so they read the same value), launches the member invocation,
re-checks the flag right after the await resolves or throws (breaking
without recording), and otherwise records the member via `recordMember`
and continues with the remaining members. -/
def runGroupMembers (beh : Nat → InvokeBehavior) (c : Nat → Bool) (gk : String) :
    List String → LoopState → LoopState
  | [], s => s
  | sub :: rest, s =>
      if c s.t then s
      else
        let b := beh s.k
        let s1 : LoopState :=
          { t := s.t + 1, k := s.k + 1, trace := s.trace ++ [s.t], results := s.results }
        if c s1.t then s1
        else
          runGroupMembers beh c gk rest
            { s1 with results := setKey s1.results gk (recordMember (getKey s1.results gk) sub b) }

/-- The single-step branch: check the cancel flag before the call,
launch, re-check after the await (breaking without recording), then
store the resolved result — or, in the catch branch, the
`{success:false, output:"", error: message, code:-1}` record — under the
`single_`-namespaced key. -/
def runSingle (beh : Nat → InvokeBehavior) (c : Nat → Bool) (u : Script)
    (s : LoopState) : LoopState :=
  if c s.t then s
  else
    let b := beh s.k
    let s1 : LoopState :=
      { t := s.t + 1, k := s.k + 1, trace := s.trace ++ [s.t], results := s.results }
    if c s1.t then s1
    else
      match b with
      | .resolves r =>
          let v : ScriptResult :=
            { success := r.success, output := r.output, error := r.error,
              code := r.code, subScripts := none }
          { s1 with results := setKey s1.results ("single_" ++ u.id) v }
      | .throws m =>
          let v : ScriptResult :=
            { success := false, output := "", error := some m,
              code := -1, subScripts := none }
          { s1 with results := setKey s1.results ("single_" ++ u.id) v }

/-- The unit loop of `onRunScripts`: check the cancel flag before each
iteration (exiting the loop when set), await `nextTick`, then run the
unit through the pipeline branch (`group_` key) or the single branch. -/
def runUnits (beh : Nat → InvokeBehavior) (c : Nat → Bool) :
    List Script → LoopState → LoopState
  | [], s => s
  | u :: rest, s =>
      if c s.t then s
      else
        let s1 : LoopState := { s with t := s.t + 1 }
        let s2 :=
          if u.scripts.isEmpty then runSingle beh c u s1
          else runGroupMembers beh c ("group_" ++ u.id) u.scripts s1
        runUnits beh c rest s2

/-- The namespaced results key of a unit (`group_<id>` or `single_<id>`). -/
def unitKey (u : Script) : String :=
  if u.scripts.isEmpty then "single_" ++ u.id else "group_" ++ u.id

/-- The failing units collected after the loop: selected units whose
recorded result exists and has `success = false`, in selection order. -/
def failedNames (results : List (String × ScriptResult)) (units : List Script) : List String :=
  (units.filter
    (fun u =>
      match getKey results (unitKey u) with
      | some r => !r.success
      | none => false)).map (fun u => u.name)

/-- Final classification of a run: cancelled (no notification), failed
(failure notification naming the failed units, joined with `、`), or
succeeded (completion notification). -/
inductive RunClassification where
  | cancelled
  | failed (names : String)
  | succeeded
deriving Repr, DecidableEq

/-- The post-loop classification of `onRunScripts`: reads the cancel
flag once more, otherwise collects the failed units from the results. -/
def classifyRun (c : Nat → Bool) (units : List Script) (s : LoopState) : RunClassification :=
  if c s.t then .cancelled
  else
    let fails := failedNames s.results units
    if fails.isEmpty then .succeeded
    else .failed (String.intercalate "、" fails)

/-- The `canRun` guard of the script page: input-folder validation,
required chip-config validation, and a chosen (truthy) output folder. -/
def canRun (inputValid chipValid : Bool) (outputFolder : String) : Bool :=
  inputValid && chipValid && !(outputFolder == "")

/-- Observable outcome of one `onRunScripts` call: the final Run State,
the invocation trace, the classification (absent when the run was
rejected), whether the blocking "not runnable" notice was shown, and
whether the live log was cleared. -/
structure RunOutput where
  state : RunState
  trace : List Nat
  classification : Option RunClassification
  noticeShown : Bool
  liveLogCleared : Bool
deriving Repr, DecidableEq

/-- Loop state at the top of the unit loop: `await clearPageLogs()` is
await number one; with a non-empty selection the pre-loop
`currentScriptIndex = 0; await nextTick()` is await number two; counters
and the results map start from zero/empty. -/
def initLoopState (units : List Script) : LoopState :=
  { t := if units.isEmpty then 1 else 2, k := 0, trace := [], results := [] }

/-- `onRunScripts`: when `canRun` fails, show the blocking notice and
return with nothing touched; otherwise reset the run state, clear the
live log, execute the unit loop, classify, and (in the `finally` block)
set `running = false`, `currentScriptIndex = -1`, `cancelled = false`,
leaving the accumulated results readable. -/
def onRunScripts (inputValid chipValid : Bool) (outputFolder : String)
    (units : List Script) (beh : Nat → InvokeBehavior) (c : Nat → Bool)
    (prev : RunState) : RunOutput :=
  if canRun inputValid chipValid outputFolder then
    let s := runUnits beh c units (initLoopState units)
    { state := { running := false, currentScriptIndex := -1,
                 results := s.results, cancelled := false },
      trace := s.trace,
      classification := some (classifyRun c units s),
      noticeShown := false,
      liveLogCleared := true }
  else
    { state := prev, trace := [], classification := none,
      noticeShown := true, liveLogCleared := false }

/-! ## Specification-side helper functions -/

/-- The member outcomes a completed pipeline should carry, in execution
order, when its members' invocations are numbered from `k`. -/
def memberOutcomes (beh : Nat → InvokeBehavior) : Nat → List String → List SubScriptResult
  | _, [] => []
  | k, sub :: rest => mkSubResult sub (beh k) :: memberOutcomes beh (k + 1) rest

/-- The failure text of the last failing member outcome, if any member
failed. -/
def lastFailureText (outs : List SubScriptResult) : Option String :=
  ((outs.filter (fun o => !o.success)).getLast?).map subFailText

/-- The failure text of the first failing member outcome, if any member
failed (the spec's reading). -/
def firstFailureText (outs : List SubScriptResult) : Option String :=
  ((outs.filter (fun o => !o.success)).head?).map subFailText

/-- Stdout text of a chunk stream, in order. -/
def stdoutText : List ProcEvent → String
  | [] => ""
  | .stdout s :: rest => s ++ stdoutText rest
  | .stderr _ :: rest => stdoutText rest

/-- Stderr text of a chunk stream, in order. -/
def stderrText : List ProcEvent → String
  | [] => ""
  | .stdout _ :: rest => stderrText rest
  | .stderr s :: rest => s ++ stderrText rest

/-- Lift a Step Invocation boundary result to the renderer's view of the
awaited call: a resolution or a thrown rejection. -/
def ipcToBehavior : Except String IpcResult → InvokeBehavior
  | .ok r => .resolves r
  | .error m => .throws m

/-- Invariant tying a group entry to the member outcomes recorded so
far: the member list in order, `success` the conjunction of member
successes, `error` the failure text of the last failing member. -/
def GroupInv (e : ScriptResult) (outs : List SubScriptResult) : Prop :=
  e.subScripts = some outs ∧
    e.success = outs.all (fun o => o.success) ∧
    e.error = lastFailureText outs

/-! ## Concrete inputs used in closed theorems -/

/-- Behaviour for the `[A, B, C]` pipeline where both `B` and `C` fail. -/
def behTwoFailures : Nat → InvokeBehavior := fun k =>
  if k = 0 then .resolves { success := true, output := "", error := none, code := 0 }
  else if k = 1 then .resolves { success := false, output := "", error := some "errB", code := 1 }
  else .resolves { success := false, output := "", error := some "errC", code := 1 }

/-- Behaviour for the two-singles scenario: `decompress` exits `0`,
`gen_html` exits `1` with stderr `template missing`; both routed through
the Step Invocation boundary. -/
def behScenario : Nat → InvokeBehavior := fun k =>
  if k = 0 then ipcToBehavior (runScriptIpc (.runs [] 0))
  else ipcToBehavior (runScriptIpc (.runs [.stderr "template missing"] 1))

/-- The two selected single-step units of the scenario. -/
def unitsScenario : List Script :=
  [{ id := "decompress", name := "decompress", scripts := [] },
   { id := "gen_html", name := "gen_html", scripts := [] }]

/-- A one-member pipeline behaviour whose first invocation fails to
resolve. -/
def behLaunchFail : Nat → InvokeBehavior := fun _ =>
  ipcToBehavior (runScriptIpc (.failsToStart "spawn python ENOENT"))

/-- A cancellation oracle that reports the flag set from await-time 4
onward. -/
def cancelFromFour : Nat → Bool := fun t => decide (4 ≤ t)

/-- Two single-step units used in cancellation witnesses. -/
def unitsTwoSingles : List Script :=
  [{ id := "a", name := "a", scripts := [] },
   { id := "b", name := "b", scripts := [] }]

/-- An idle Run State (no run active, as after a finished run). -/
def idleState : RunState :=
  { running := false, currentScriptIndex := -1, results := [], cancelled := false }

/-! ## Helper lemmas -/

lemma getKey_setKey_self (m : List (String × ScriptResult)) (key : String) (v : ScriptResult) :
    getKey (setKey m key v) key = some v := by
  induction m with
  | nil => simp [setKey, getKey]
  | cons hd tl ih =>
      obtain ⟨k0, v0⟩ := hd
      by_cases h : k0 = key
      · simp [setKey, getKey, h]
      · simp [setKey, getKey, h, ih]

lemma runGroupMembers_cons_noCancel (beh : Nat → InvokeBehavior) (gk sub : String)
    (rest : List String) (s : LoopState) :
    runGroupMembers beh (fun _ => false) gk (sub :: rest) s =
      runGroupMembers beh (fun _ => false) gk rest
        { t := s.t + 1, k := s.k + 1, trace := s.trace ++ [s.t],
          results := setKey s.results gk (recordMember (getKey s.results gk) sub (beh s.k)) } := by
  simp [runGroupMembers]

lemma lastFailureText_append_fail (outs : List SubScriptResult) (o : SubScriptResult)
    (h : o.success = false) : lastFailureText (outs ++ [o]) = some (subFailText o) := by
  simp [lastFailureText, List.filter_append, h, List.getLast?_concat]

lemma lastFailureText_append_ok (outs : List SubScriptResult) (o : SubScriptResult)
    (h : o.success = true) : lastFailureText (outs ++ [o]) = lastFailureText outs := by
  simp [lastFailureText, List.filter_append, h]

lemma recordMember_none_inv (sub : String) (b : InvokeBehavior) :
    GroupInv (recordMember none sub b) [mkSubResult sub b] := by
  cases b with
  | resolves r =>
      by_cases h : r.success
      · simp [recordMember, GroupInv, mkSubResult, lastFailureText, h]
      · simp [recordMember, GroupInv, mkSubResult, lastFailureText, subFailText, h]
  | throws m =>
      simp [recordMember, GroupInv, mkSubResult, lastFailureText, subFailText]

lemma recordMember_some_inv (e : ScriptResult) (outs : List SubScriptResult)
    (sub : String) (b : InvokeBehavior) (hinv : GroupInv e outs) :
    GroupInv (recordMember (some e) sub b) (outs ++ [mkSubResult sub b]) := by
  obtain ⟨h1, h2, h3⟩ := hinv
  cases b with
  | resolves r =>
      by_cases h : r.success
      · refine ⟨?_, ?_, ?_⟩
        · simp [recordMember, h, h1]
        · simp [recordMember, h, h2, mkSubResult, List.all_append]
        · simp [recordMember, h, h3]
          rw [lastFailureText_append_ok]
          simp [mkSubResult, h]
      · refine ⟨?_, ?_, ?_⟩
        · simp [recordMember, h, h1]
        · simp [recordMember, h, mkSubResult, List.all_append]
        · simp [recordMember, h]
          rw [lastFailureText_append_fail]
          simp [mkSubResult, h]
  | throws m =>
      refine ⟨?_, ?_, ?_⟩
      · simp [recordMember, h1]
      · simp [recordMember, mkSubResult, List.all_append]
      · simp [recordMember]
        rw [lastFailureText_append_fail]
        simp [mkSubResult]

lemma runGroupMembers_noCancel_inv (beh : Nat → InvokeBehavior) (gk : String) :
    ∀ (members : List String) (s : LoopState) (e : ScriptResult) (outs : List SubScriptResult),
      getKey s.results gk = some e → GroupInv e outs →
      ∃ g, getKey (runGroupMembers beh (fun _ => false) gk members s).results gk = some g ∧
        GroupInv g (outs ++ memberOutcomes beh s.k members) := by
  intro members
  induction members with
  | nil =>
      intro s e outs hget hinv
      refine ⟨e, ?_, ?_⟩
      · simpa [runGroupMembers] using hget
      · simpa [memberOutcomes] using hinv
  | cons sub rest ih =>
      intro s e outs hget hinv
      rw [runGroupMembers_cons_noCancel, hget]
      have hrec := recordMember_some_inv e outs sub (beh s.k) hinv
      obtain ⟨g, hg, hginv⟩ :=
        ih { t := s.t + 1, k := s.k + 1, trace := s.trace ++ [s.t],
             results := setKey s.results gk (recordMember (some e) sub (beh s.k)) }
          (recordMember (some e) sub (beh s.k)) (outs ++ [mkSubResult sub (beh s.k)])
          (getKey_setKey_self _ _ _) hrec
      refine ⟨g, hg, ?_⟩
      simpa [memberOutcomes, List.append_assoc] using hginv

lemma runGroupMembers_trace_clear (beh : Nat → InvokeBehavior) (c : Nat → Bool) (gk : String) :
    ∀ (members : List String) (s : LoopState),
      (∀ x ∈ s.trace, c x = false) →
      ∀ x ∈ (runGroupMembers beh c gk members s).trace, c x = false := by
  intro members
  induction members with
  | nil => intro s hs; simpa [runGroupMembers] using hs
  | cons sub rest ih =>
      intro s hs
      cases h1 : c s.t with
      | true => simpa [runGroupMembers, h1] using hs
      | false =>
          have hs1 : ∀ x ∈ s.trace ++ [s.t], c x = false := by
            intro x hx
            rcases List.mem_append.1 hx with hx | hx
            · exact hs x hx
            · simp at hx
              subst hx
              exact h1
          cases h2 : c (s.t + 1) with
          | true => simpa [runGroupMembers, h1, h2] using hs1
          | false =>
              have hred : runGroupMembers beh c gk (sub :: rest) s =
                  runGroupMembers beh c gk rest
                    { t := s.t + 1, k := s.k + 1, trace := s.trace ++ [s.t],
                      results := setKey s.results gk
                        (recordMember (getKey s.results gk) sub (beh s.k)) } := by
                simp [runGroupMembers, h1, h2]
              rw [hred]
              exact ih _ hs1

lemma runSingle_trace_clear (beh : Nat → InvokeBehavior) (c : Nat → Bool) (u : Script)
    (s : LoopState) (hs : ∀ x ∈ s.trace, c x = false) :
    ∀ x ∈ (runSingle beh c u s).trace, c x = false := by
  cases h1 : c s.t with
  | true => simpa [runSingle, h1] using hs
  | false =>
      have hs1 : ∀ x ∈ s.trace ++ [s.t], c x = false := by
        intro x hx
        rcases List.mem_append.1 hx with hx | hx
        · exact hs x hx
        · simp at hx
          subst hx
          exact h1
      cases h2 : c (s.t + 1) with
      | true => simpa [runSingle, h1, h2] using hs1
      | false =>
          cases hb : beh s.k with
          | resolves r => simpa [runSingle, h1, h2, hb] using hs1
          | throws m => simpa [runSingle, h1, h2, hb] using hs1

lemma runUnits_trace_clear (beh : Nat → InvokeBehavior) (c : Nat → Bool) :
    ∀ (units : List Script) (s : LoopState),
      (∀ x ∈ s.trace, c x = false) →
      ∀ x ∈ (runUnits beh c units s).trace, c x = false := by
  intro units
  induction units with
  | nil => intro s hs; simpa [runUnits] using hs
  | cons u rest ih =>
      intro s hs
      cases h1 : c s.t with
      | true => simpa [runUnits, h1] using hs
      | false =>
          have hs1 : ∀ y ∈ ({ s with t := s.t + 1 } : LoopState).trace, c y = false := hs
          have hred : runUnits beh c (u :: rest) s =
              runUnits beh c rest
                (if u.scripts.isEmpty then runSingle beh c u { s with t := s.t + 1 }
                 else runGroupMembers beh c ("group_" ++ u.id) u.scripts
                   { s with t := s.t + 1 }) := by
            simp [runUnits, h1]
          rw [hred]
          cases hu : u.scripts.isEmpty with
          | true =>
              simp only [hu, if_true]
              exact ih _ (runSingle_trace_clear beh c u _ hs1)
          | false =>
              simp only [hu, Bool.false_eq_true, if_false]
              exact ih _ (runGroupMembers_trace_clear beh c ("group_" ++ u.id) _ _ hs1)

lemma collectOutput_spec (events : List ProcEvent) :
    collectOutput events = (stdoutText events, stderrText events) := by
  have aux : ∀ (evs : List ProcEvent) (a b : String),
      evs.foldl
        (fun acc e =>
          match e with
          | .stdout str => (acc.1 ++ str, acc.2)
          | .stderr str => (acc.1, acc.2 ++ str))
        (a, b) = (a ++ stdoutText evs, b ++ stderrText evs) := by
    intro evs
    induction evs with
    | nil => intro a b; simp [stdoutText, stderrText]
    | cons e rest ih =>
        intro a b
        cases e with
        | stdout str => simp [stdoutText, stderrText, ih, String.append_assoc]
        | stderr str => simp [stdoutText, stderrText, ih, String.append_assoc]
  simpa using aux events "" ""

/-! ## Claim theorems -/

/-- Claim C1, amended: for every pipeline unit whose member steps are
executed to completion (no cancellation) into a fresh results key, the
recorded Grouped Outcome contains the member Outcomes in execution
order, its success flag equals the logical AND of all member success
flags, and, whenever at least one member failed, its error text names
the LAST failing member and that member's error (each failing member
overwrites the group error in turn). -/
theorem pipeline_grouped_outcome (beh : Nat → InvokeBehavior) (gk : String)
    (members : List String) (s : LoopState)
    (hfresh : getKey s.results gk = none) (hne : members ≠ []) :
    ∃ g, getKey (runGroupMembers beh (fun _ => false) gk members s).results gk = some g ∧
      g.subScripts = some (memberOutcomes beh s.k members) ∧
      g.success = (memberOutcomes beh s.k members).all (fun o => o.success) ∧
      g.error = lastFailureText (memberOutcomes beh s.k members) := by
  cases members with
  | nil => exact absurd rfl hne
  | cons sub rest =>
      rw [runGroupMembers_cons_noCancel, hfresh]
      obtain ⟨g, hg, hginv⟩ :=
        runGroupMembers_noCancel_inv beh gk rest
          { t := s.t + 1, k := s.k + 1, trace := s.trace ++ [s.t],
            results := setKey s.results gk (recordMember none sub (beh s.k)) }
          (recordMember none sub (beh s.k)) [mkSubResult sub (beh s.k)]
          (getKey_setKey_self _ _ _) (recordMember_none_inv sub (beh s.k))
      obtain ⟨hi1, hi2, hi3⟩ := hginv
      refine ⟨g, hg, ?_, ?_, ?_⟩
      · simpa [memberOutcomes] using hi1
      · simpa [memberOutcomes] using hi2
      · simpa [memberOutcomes] using hi3

/-- Witness for C1: a two-member pipeline with a failing first member
and a succeeding second member, run from the empty results map. -/
theorem pipeline_grouped_outcome_witness :
    getKey ([] : List (String × ScriptResult)) "group_g" = none ∧
    (["m1", "m2"] : List String) ≠ [] ∧
    (∃ g, getKey (runGroupMembers behTwoFailures (fun _ => false) "group_g"
        ["m1", "m2"] { t := 2, k := 1, trace := [], results := [] }).results "group_g" = some g ∧
      g.subScripts = some (memberOutcomes behTwoFailures 1 ["m1", "m2"]) ∧
      g.success = (memberOutcomes behTwoFailures 1 ["m1", "m2"]).all (fun o => o.success) ∧
      g.error = lastFailureText (memberOutcomes behTwoFailures 1 ["m1", "m2"])) :=
  ⟨rfl, by simp,
    pipeline_grouped_outcome behTwoFailures "group_g" ["m1", "m2"]
      { t := 2, k := 1, trace := [], results := [] } rfl (by simp)⟩

/-- Counterexample to C1 as stated: in the `[A, B, C]` pipeline where
`B` and `C` both fail, the first failing member is `B`, but the recorded
group error names `C` (the last failing member). -/
theorem grouped_error_names_last_failing_member :
    ((getKey (runGroupMembers behTwoFailures (fun _ => false) "group_p1" ["A", "B", "C"]
        { t := 0, k := 0, trace := [], results := [] }).results "group_p1").map
      (fun g => g.error)) = some (some "子脚本 C 执行失败: errC") ∧
    firstFailureText (memberOutcomes behTwoFailures 0 ["A", "B", "C"]) =
      some "子脚本 B 执行失败: errB" ∧
    (some "子脚本 C 执行失败: errC" : Option String) ≠ some "子脚本 B 执行失败: errB" := by
  refine ⟨rfl, rfl, by decide⟩

/-- Claim C2: once the cancellation flag has been set (the flag is
monotone within a run — nothing clears it while the loop runs), no Step
Invocation is ever started at or after that await-time: every launch in
the trace happened strictly before the flag was first observed set. -/
theorem cancelled_flag_stops_invocations (inputValid chipValid : Bool)
    (outputFolder : String) (units : List Script) (beh : Nat → InvokeBehavior)
    (c : Nat → Bool) (prev : RunState)
    (hmono : ∀ a b, a ≤ b → c a = true → c b = true)
    (tstar : Nat) (hset : c tstar = true) :
    ∀ x ∈ (onRunScripts inputValid chipValid outputFolder units beh c prev).trace,
      x < tstar := by
  intro x hx
  have hfalse : c x = false := by
    by_cases hcr : canRun inputValid chipValid outputFolder = true
    · have := runUnits_trace_clear beh c units (initLoopState units) (by simp [initLoopState])
      refine this x ?_
      simpa [onRunScripts, hcr] using hx
    · simp [onRunScripts, hcr] at hx
  by_contra hge
  push_neg at hge
  have htrue := hmono tstar x hge hset
  rw [hfalse] at htrue
  exact Bool.false_ne_true htrue

/-- Witness for C2: with the flag set from await-time 4 onward, the
two-singles run launches only the invocation at await-time 3. -/
theorem cancelled_flag_stops_invocations_witness :
    (∀ a b, a ≤ b → cancelFromFour a = true → cancelFromFour b = true) ∧
    cancelFromFour 4 = true ∧
    (∀ x ∈ (onRunScripts true true "out" unitsTwoSingles behScenario cancelFromFour
        idleState).trace, x < 4) := by
  have hmono : ∀ a b, a ≤ b → cancelFromFour a = true → cancelFromFour b = true := by
    intro a b hab ha
    simp only [cancelFromFour, decide_eq_true_eq] at ha ⊢
    omega
  exact ⟨hmono, by decide,
    cancelled_flag_stops_invocations true true "out" unitsTwoSingles behScenario
      cancelFromFour idleState hmono 4 (by decide)⟩

/-- Claim C3: when a Step Invocation is rejected at the boundary (launch
failure), the orchestrator records a failed Outcome with exit code `-1`
and the launch error text — under the `single_` key for a single unit,
as a pushed member outcome for a pipeline member — and the loop
continues with the next unit (respectively the remaining members); the
run is not aborted. -/
theorem launch_failure_recorded_and_run_continues
    (beh : Nat → InvokeBehavior) (msg : String) (u : Script) (rest : List Script)
    (s : LoopState) (gk sub : String) (mrest : List String) (s2 : LoopState)
    (hu : u.scripts = []) (h1 : beh s.k = .throws msg) (h2 : beh s2.k = .throws msg) :
    (runUnits beh (fun _ => false) (u :: rest) s =
      runUnits beh (fun _ => false) rest
        { t := s.t + 2, k := s.k + 1, trace := s.trace ++ [s.t + 1],
          results := setKey s.results ("single_" ++ u.id)
            { success := false, output := "", error := some msg,
              code := -1, subScripts := none } }) ∧
    (runGroupMembers beh (fun _ => false) gk (sub :: mrest) s2 =
      runGroupMembers beh (fun _ => false) gk mrest
        { t := s2.t + 1, k := s2.k + 1, trace := s2.trace ++ [s2.t],
          results := setKey s2.results gk
            (recordMember (getKey s2.results gk) sub (.throws msg)) }) ∧
    (∀ e : ScriptResult, (recordMember (some e) sub (.throws msg)).subScripts =
      some (e.subScripts.getD [] ++
        [{ name := sub, success := false, output := "", error := some msg, code := -1 }])) := by
  refine ⟨?_, ?_, ?_⟩
  · simp [runUnits, runSingle, hu, h1]
  · rw [runGroupMembers_cons_noCancel, h2]
  · intro e
    simp [recordMember, mkSubResult]

/-- Witness for C3: a concrete single unit and pipeline member whose
invocations are rejected with `spawn python ENOENT` wrapped by the IPC
boundary. -/
theorem launch_failure_witness :
    ({ id := "u1", name := "u1", scripts := [] } : Script).scripts = [] ∧
    behLaunchFail 0 = .throws "启动 Python 脚本失败: spawn python ENOENT" ∧
    (runUnits behLaunchFail (fun _ => false)
        [{ id := "u1", name := "u1", scripts := [] }] { t := 2, k := 0, trace := [], results := [] } =
      runUnits behLaunchFail (fun _ => false) []
        { t := 4, k := 1, trace := [3],
          results := setKey [] "single_u1"
            { success := false, output := "",
              error := some "启动 Python 脚本失败: spawn python ENOENT",
              code := -1, subScripts := none } }) := by
  refine ⟨rfl, rfl, ?_⟩
  have h := launch_failure_recorded_and_run_continues behLaunchFail
    "启动 Python 脚本失败: spawn python ENOENT"
    { id := "u1", name := "u1", scripts := [] } []
    { t := 2, k := 0, trace := [], results := [] } "group_x" "m" []
    { t := 0, k := 0, trace := [], results := [] } rfl rfl rfl
  exact h.1

/-- Claim C4: for every Step Invocation whose process starts and exits,
the `python:runScript` handler resolves (never rejects): `success` holds
exactly when the exit code is `0`, the real exit code is carried, the
captured stdout is the output, and on a non-zero code the captured
stderr is the error text. -/
theorem step_exit_always_resolves (events : List ProcEvent) (code : Int) :
    ∃ r, runScriptIpc (.runs events code) = .ok r ∧
      (r.success = true ↔ code = 0) ∧
      r.code = code ∧
      r.output = stdoutText events ∧
      r.error = (if code = 0 then none else some (stderrText events)) := by
  by_cases h : code = 0
  · refine ⟨⟨true, stdoutText events, none, code⟩, ?_, ?_, rfl, rfl, ?_⟩
    · simp [runScriptIpc, h, collectOutput_spec]
    · simp [h]
    · simp [h]
  · refine ⟨⟨false, stdoutText events, some (stderrText events), code⟩, ?_, ?_, rfl, rfl, ?_⟩
    · simp [runScriptIpc, h, collectOutput_spec]
    · simp [h]
    · simp [h]

/-- Claim C5: the two-singles scenario — `decompress` exits `0`,
`gen_html` exits `1` with stderr `template missing` — ends with results
keyed `single_<id>`, success for `decompress`, a failed result with exit
code `1` and error `template missing` for `gen_html`, and the run
classified as partially-failed naming exactly `gen_html`. -/
theorem two_singles_scenario_final_state :
    onRunScripts true true "out" unitsScenario behScenario (fun _ => false) idleState =
      { state := { running := false, currentScriptIndex := -1,
                   results := [("single_decompress",
                      { success := true, output := "", error := none,
                        code := 0, subScripts := none }),
                     ("single_gen_html",
                      { success := false, output := "", error := some "template missing",
                        code := 1, subScripts := none })],
                   cancelled := false },
        trace := [3, 5],
        classification := some (.failed "gen_html"),
        noticeShown := false,
        liveLogCleared := true } := by
  rfl

/-- Counterexample to C6 as stated: calling the cancel path from the
idle state (no run active, `currentPythonProcess` absent) does change
the Run State — the cancelled flag flips from `false` to `true`. -/
theorem cancel_idle_changes_cancelled_flag :
    (onCancelExecution idleState (.returns (cancelPythonScript none))).2.cancelled = true ∧
    idleState.cancelled = false := by
  exact ⟨rfl, rfl⟩

/-- Claim C6, amended: calling the cancel path with no run active
returns `success = false` with the explanatory error both times and
never throws (every branch returns a result), and it leaves `running`,
`currentScriptIndex` and `results` unchanged — but it sets the cancelled
flag to `true`, so only the first call from a finished run changes the
Run State; the repeated call changes nothing further. -/
theorem cancel_idle_twice (st : RunState) :
    (onCancelExecution st (.returns (cancelPythonScript none))).1 =
      { success := false, error := some "没有正在运行的脚本" } ∧
    (onCancelExecution st (.returns (cancelPythonScript none))).2 =
      { st with cancelled := true } ∧
    (onCancelExecution { st with cancelled := true }
        (.returns (cancelPythonScript none))).1 =
      { success := false, error := some "没有正在运行的脚本" } ∧
    (onCancelExecution { st with cancelled := true }
        (.returns (cancelPythonScript none))).2 =
      { st with cancelled := true } := by
  refine ⟨rfl, rfl, rfl, rfl⟩

/-- Claim C7: every started run ends by setting `running = false`,
`currentScriptIndex = -1` and `cancelled = false`, leaving the results
accumulated by the loop readable; the results are reset to empty at run
start (the final state does not depend on the previous Run State). -/
theorem run_end_resets_flags_keeps_results (inputValid chipValid : Bool)
    (outputFolder : String) (units : List Script) (beh : Nat → InvokeBehavior)
    (c : Nat → Bool) (prev prev2 : RunState)
    (h : canRun inputValid chipValid outputFolder = true) :
    (onRunScripts inputValid chipValid outputFolder units beh c prev).state.running = false ∧
    (onRunScripts inputValid chipValid outputFolder units beh c prev).state.currentScriptIndex
      = -1 ∧
    (onRunScripts inputValid chipValid outputFolder units beh c prev).state.cancelled = false ∧
    (onRunScripts inputValid chipValid outputFolder units beh c prev).state.results =
      (runUnits beh c units (initLoopState units)).results ∧
    (onRunScripts inputValid chipValid outputFolder units beh c prev).state =
      (onRunScripts inputValid chipValid outputFolder units beh c prev2).state ∧
    (initLoopState units).results = [] := by
  refine ⟨?_, ?_, ?_, ?_, ?_, ?_⟩ <;> simp [onRunScripts, h, initLoopState]

/-- Witness for C7: the two-singles scenario run, started from two
different previous Run States. -/
theorem run_end_resets_flags_keeps_results_witness :
    canRun true true "out" = true ∧
    ((onRunScripts true true "out" unitsScenario behScenario (fun _ => false)
        idleState).state.running = false ∧
      (onRunScripts true true "out" unitsScenario behScenario (fun _ => false)
        idleState).state.currentScriptIndex = -1 ∧
      (onRunScripts true true "out" unitsScenario behScenario (fun _ => false)
        idleState).state.cancelled = false ∧
      (onRunScripts true true "out" unitsScenario behScenario (fun _ => false)
        idleState).state.results =
        (runUnits behScenario (fun _ => false) unitsScenario
          (initLoopState unitsScenario)).results ∧
      (onRunScripts true true "out" unitsScenario behScenario (fun _ => false)
        idleState).state =
        (onRunScripts true true "out" unitsScenario behScenario (fun _ => false)
          { running := true, currentScriptIndex := 0,
            results := [("single_x", ⟨false, "", none, 2, none⟩)],
            cancelled := true }).state ∧
      (initLoopState unitsScenario).results = []) :=
  ⟨rfl, run_end_resets_flags_keeps_results true true "out" unitsScenario behScenario
    (fun _ => false) idleState
    { running := true, currentScriptIndex := 0,
      results := [("single_x", ⟨false, "", none, 2, none⟩)], cancelled := true } rfl⟩

/-- Claim C8: a run request made while `canRun` fails is rejected
synchronously: the blocking notice is shown, no Step Invocation is
launched, the live log is not cleared, and the Run State is returned
unchanged. -/
theorem invalid_run_request_rejected (inputValid chipValid : Bool)
    (outputFolder : String) (units : List Script) (beh : Nat → InvokeBehavior)
    (c : Nat → Bool) (prev : RunState)
    (h : canRun inputValid chipValid outputFolder = false) :
    onRunScripts inputValid chipValid outputFolder units beh c prev =
      { state := prev, trace := [], classification := none,
        noticeShown := true, liveLogCleared := false } := by
  simp [onRunScripts, h]

/-- Witness for C8: no output folder chosen, with a previous state whose
results are non-empty and must stay readable. -/
theorem invalid_run_request_rejected_witness :
    canRun true true "" = false ∧
    onRunScripts true true "" unitsScenario behScenario (fun _ => false)
      { running := false, currentScriptIndex := -1,
        results := [("single_x", ⟨true, "", none, 0, none⟩)], cancelled := false } =
      { state := { running := false, currentScriptIndex := -1,
                   results := [("single_x", ⟨true, "", none, 0, none⟩)], cancelled := false },
        trace := [], classification := none,
        noticeShown := true, liveLogCleared := false } :=
  ⟨rfl, invalid_run_request_rejected true true "" unitsScenario behScenario
    (fun _ => false)
    { running := false, currentScriptIndex := -1,
      results := [("single_x", ⟨true, "", none, 0, none⟩)], cancelled := false } rfl⟩

/-- Claim C9: `appendLive` splits a message into its physical lines and
appends one record per non-empty line — exactly `k` records for `k`
non-empty lines, empty lines producing none — each record carrying the
same capture timestamp, the same origin and the same kind. -/
theorem appendLive_splits_lines (file : String) (d : LogData) :
    writeRealtimeLog file d =
      file ++ concatAll ((nonEmptyLines d.data).map
        (fmtLogLine d.timestamp (logOrigin d) d.type.toUpper)) ∧
    ((nonEmptyLines d.data).map
      (fmtLogLine d.timestamp (logOrigin d) d.type.toUpper)).length =
      (nonEmptyLines d.data).length := by
  constructor
  · have aux : ∀ (lines : List String) (f0 : String),
        lines.foldl
          (fun f line => if line.trim = "" then f
            else f ++ fmtLogLine d.timestamp (logOrigin d) d.type.toUpper line) f0 =
          f0 ++ concatAll ((lines.filter (fun l => !(l.trim = ""))).map
            (fmtLogLine d.timestamp (logOrigin d) d.type.toUpper)) := by
      intro lines
      induction lines with
      | nil => intro f0; simp [concatAll]
      | cons l rest ih =>
          intro f0
          by_cases hl : l.trim = ""
          · simp [hl, ih]
          · simp [hl, ih, concatAll, String.append_assoc]
    simpa [writeRealtimeLog, nonEmptyLines] using aux (d.data.splitOn "\n") file
  · simp

/-- Claim C10: every path through the orchestrator's cancel handler —
API success, API returning failure, API throwing — sets the cancelled
flag, so the execution loop stops at its next cancellation check (a loop
state whose flag reads set runs no further unit); only the returned
success flag distinguishes the cases. -/
theorem cancel_path_always_sets_flag (st : RunState) (api : CancelApi) :
    (onCancelExecution st api).2.cancelled = true ∧
    ((onCancelExecution st api).1.success = true ↔
      ∃ r, api = .returns r ∧ r.success = true) ∧
    (∀ (beh : Nat → InvokeBehavior) (c : Nat → Bool) (units : List Script) (s : LoopState),
      c s.t = true → runUnits beh c units s = s) := by
  refine ⟨?_, ?_, ?_⟩
  · cases api with
    | returns r =>
        by_cases h : r.success <;> simp [onCancelExecution, h]
    | throws m => simp [onCancelExecution]
  · constructor
    · intro hsucc
      cases api with
      | returns r =>
          refine ⟨r, rfl, ?_⟩
          by_cases h : r.success
          · exact h
          · simp [onCancelExecution, h] at hsucc
      | throws m => simp [onCancelExecution] at hsucc
    · rintro ⟨r, hrapi, hrs⟩
      subst hrapi
      simp [onCancelExecution, hrs]
  · intro beh c units s hc
    cases units <;> simp [runUnits, hc]

/-- Witness for C10: a throwing cancel API still sets the flag, and a
loop state observed with the flag set runs no further unit. -/
theorem cancel_path_always_sets_flag_witness :
    (onCancelExecution idleState (.throws "ipc failure")).2.cancelled = true ∧
    (fun _ => true : Nat → Bool) 7 = true ∧
    runUnits behScenario (fun _ => true) unitsScenario ⟨7, 0, [], []⟩ = ⟨7, 0, [], []⟩ :=
  ⟨(cancel_path_always_sets_flag idleState (.throws "ipc failure")).1, rfl,
    (cancel_path_always_sets_flag idleState (.throws "ipc failure")).2.2
      behScenario (fun _ => true) unitsScenario ⟨7, 0, [], []⟩ rfl⟩

end ChmGen
